import Mathlib

/-!
# Verification of the Lyra semantic front end

Shallow embedding of the Lyra type algebra (`pkg/types`), symbol table
(`pkg/ast/symbols`, and the `pkg/symbols` snapshot), collector type parsing
(`pkg/analyzer/collector.go` and `pkg/analyzer/collector/collector.go`)
and checker (`pkg/analyzer/checker/_checker.go`), together with proofs
about their behaviour.
-/

namespace Lyra

/--
Embeds the Go interface `types.Type` (pkg/types/types.go, pkg/types/primitives.go).
A Go interface value may also be `nil`; `Ty.nil` represents that value.
Go's `map[string]Type` fields are embedded as association lists
(`List (String × Ty)`, lookup = first match; Go maps have unique keys).
A `FunctionType` parameter (`types.ParameterType`) is a pair
(modifier, type); `TypesEqual` only ever inspects its `.Type` component.
A `DataTypeConstructor` {Name, Params, Fields} is embedded as the triple
(name, params, fields).
-/
inductive Ty where
  | nil : Ty
  | primitive (name : String) : Ty
  | array (elementType : Ty) : Ty
  | function (parameterTypes : List (String × Ty)) (returnType : Ty) : Ty
  | generic (name : String) : Ty
  | struct (name : String) (fields : List (String × Ty)) : Ty
  | map (keyType valueType : Ty) : Ty
  | tuple (elements : List Ty) : Ty
  | data (name : String) (constructors : List (String × (List Ty × List (String × Ty)))) : Ty
  | unresolved (name : String) : Ty
deriving Repr

/-- Embeds `PrimitiveType.IsNumericType` (pkg/types/primitives.go:36-41);
every other variant's `IsNumericType` returns false (pkg/types/types.go:24-44). -/
def IsNumericType : Ty → Bool
  | .primitive n =>
      let isInt := n == "Int" || n == "Int8" || n == "Int16" || n == "Int32" || n == "Int64"
      let isUInt := n == "UInt" || n == "UInt8" || n == "UInt16" || n == "UInt32" || n == "UInt64"
      let isFloat := n == "Float" || n == "Float16" || n == "Float32" || n == "Float64"
      isInt || isUInt || isFloat
  | _ => false

mutual

/--
Embeds `TypesEqual` (pkg/types/unify.go:4-62).
The Go `switch at := a.(type)` has cases for `PrimitiveType`, `ArrayType`,
`FunctionType`, `StructType`, `MapType`, `TupleType` and `DataType`;
`GenericType`, `UnresolvedType` and a nil interface value hit `default`
and the function returns false. Each case's inner type assertion on `b`
returns false when `b` is of a different variant.
-/
def TypesEqual : Ty → Ty → Bool
  | .primitive an, b =>
      match b with
      | .primitive bn => an == bn
      | _ => false
  | .array ae, b =>
      match b with
      | .array be => TypesEqual ae be
      | _ => false
  | .function aps ar, b =>
      match b with
      | .function bps br =>
          if aps.length != bps.length then false
          else parametersEqual aps bps && TypesEqual ar br
      | _ => false
  | .struct an af, b =>
      match b with
      | .struct bn bf =>
          if an != bn then false
          else fieldsEqual af bf
      | _ => false
  | .map ak av, b =>
      match b with
      | .map bk bv => TypesEqual ak bk && TypesEqual av bv
      | _ => false
  | .tuple ae, b =>
      match b with
      | .tuple be =>
          if ae.length != be.length then false
          else elementsEqual ae be
      | _ => false
  | .data an _, b =>
      match b with
      | .data bn _ => an == bn
      | _ => false
  | .nil, _ => false
  | .generic _, _ => false
  | .unresolved _, _ => false
termination_by a _ => sizeOf a
decreasing_by all_goals (simp_wf <;> omega)

/-- The `for i := range at.Parameters` loop of the `FunctionType` case
(unify.go:19-23): pairwise `TypesEqual` on the `.Type` components.
Only reached after the length check, so the uneven patterns are dead. -/
def parametersEqual : List (String × Ty) → List (String × Ty) → Bool
  | (_, at_) :: aps, (_, bt) :: bps => TypesEqual at_ bt && parametersEqual aps bps
  | _, _ => true
termination_by aps _ => sizeOf aps
decreasing_by all_goals (simp_wf <;> omega)

/-- The `for name, aFieldType := range at.Fields` loop of the `StructType`
case (unify.go:31-35): every field of `a` must be present in `b`'s field
map with a `TypesEqual` type. -/
def fieldsEqual : List (String × Ty) → List (String × Ty) → Bool
  | [], _ => true
  | (name, aFieldType) :: afs, bf =>
      (match bf.lookup name with
       | some bFieldType => TypesEqual aFieldType bFieldType
       | none => false) && fieldsEqual afs bf
termination_by afs _ => sizeOf afs
decreasing_by all_goals (simp_wf <;> omega)

/-- The `for i := range at.Elements` loop of the `TupleType` case
(unify.go:47-51). Only reached after the length check. -/
def elementsEqual : List Ty → List Ty → Bool
  | ae :: aes, be :: bes => TypesEqual ae be && elementsEqual aes bes
  | _, _ => true
termination_by aes _ => sizeOf aes
decreasing_by all_goals (simp_wf <;> omega)

end

/-- True exactly for the variants that have a case in `TypesEqual`'s
`switch` (unify.go:5-57); `GenericType`, `UnresolvedType` and nil hit
`default`. -/
def knownVariant : Ty → Bool
  | .primitive _ => true
  | .array _ => true
  | .function _ _ => true
  | .struct _ _ => true
  | .map _ _ => true
  | .tuple _ => true
  | .data _ _ => true
  | .nil => false
  | .generic _ => false
  | .unresolved _ => false

/-- Whether two embedded type values carry the same Go dynamic type
(the same `Ty` constructor). -/
def sameVariant : Ty → Ty → Bool
  | .nil, .nil => true
  | .primitive _, .primitive _ => true
  | .array _, .array _ => true
  | .function _ _, .function _ _ => true
  | .generic _, .generic _ => true
  | .struct _ _, .struct _ _ => true
  | .map _ _, .map _ _ => true
  | .tuple _, .tuple _ => true
  | .data _ _, .data _ _ => true
  | .unresolved _, .unresolved _ => true
  | _, _ => false

/-- Whether an association list binds each key at most once (the invariant
every embedded Go `map[string]Type` satisfies). -/
def uniqueKeys : List (String × Ty) → Bool
  | [] => true
  | (n, _) :: rest => (rest.lookup n).isNone && uniqueKeys rest

mutual

/-- The `Ty` values on which `TypesEqual` can act reflexively: no
nil / `GenericType` / `UnresolvedType` component in any position the
equality inspects, and unique struct field keys. `DataType` constructors
are never inspected, so they are unconstrained. -/
def selfComparable : Ty → Bool
  | .nil => false
  | .primitive _ => true
  | .array e => selfComparable e
  | .function ps r => parametersSelfComparable ps && selfComparable r
  | .generic _ => false
  | .struct _ f => uniqueKeys f && fieldsSelfComparable f
  | .map k v => selfComparable k && selfComparable v
  | .tuple es => elementsSelfComparable es
  | .data _ _ => true
  | .unresolved _ => false

def parametersSelfComparable : List (String × Ty) → Bool
  | [] => true
  | (_, t) :: ps => selfComparable t && parametersSelfComparable ps

def fieldsSelfComparable : List (String × Ty) → Bool
  | [] => true
  | (_, t) :: fs => selfComparable t && fieldsSelfComparable fs

def elementsSelfComparable : List Ty → Bool
  | [] => true
  | t :: ts => selfComparable t && elementsSelfComparable ts

end

mutual

/-- No `StructType` in any position `TypesEqual` inspects. The struct case
of `TypesEqual` is the only asymmetric one (its field loop only ranges
over the left operand's fields), so `TypesEqual` is symmetric away from
structs. `DataType` constructors are never inspected. -/
def structFree : Ty → Bool
  | .struct _ _ => false
  | .array e => structFree e
  | .function ps r => parametersStructFree ps && structFree r
  | .map k v => structFree k && structFree v
  | .tuple es => elementsStructFree es
  | .nil => true
  | .primitive _ => true
  | .generic _ => true
  | .data _ _ => true
  | .unresolved _ => true

def parametersStructFree : List (String × Ty) → Bool
  | [] => true
  | (_, t) :: ps => structFree t && parametersStructFree ps

def elementsStructFree : List Ty → Bool
  | [] => true
  | t :: ts => structFree t && elementsStructFree ts

end

/-- Go's `t == nil` / `t != nil` test on an interface value of type
`types.Type`. -/
def Ty.isNil : Ty → Bool
  | .nil => true
  | _ => false

mutual

/-- Embeds `Checker.typeString` (pkg/analyzer/checker/_checker.go:626-663).
The nil check yields "<unknown>"; `UnresolvedType` has no switch case, so
it falls through to `fmt.Sprintf("%T", t)`, the Go dynamic type name. -/
def typeString : Ty → String
  | .nil => "<unknown>"
  | .primitive n => n
  | .array e => "[]" ++ typeString e
  | .map k v => "\x7b" ++ typeString k ++ ": " ++ typeString v ++ "\x7d"
  | .tuple es => "(" ++ typeStringElements es ++ ")"
  | .struct n _ => n
  | .data n _ => n
  | .function ps r => "(" ++ typeStringParameters ps ++ ") -> " ++ typeString r
  | .generic n => n
  | .unresolved _ => "types.UnresolvedType"

/-- The tuple loop of `typeString` (prefix ", " before every element but
the first). -/
def typeStringElements : List Ty → String
  | [] => ""
  | [t] => typeString t
  | t :: ts => typeString t ++ ", " ++ typeStringElements ts

/-- The function-parameter loop of `typeString`; only the parameter's
`.Type` component is printed. -/
def typeStringParameters : List (String × Ty) → String
  | [] => ""
  | [(_, t)] => typeString t
  | (_, t) :: ps => typeString t ++ ", " ++ typeStringParameters ps

end

/-- Embeds `checker.TypeError` (_checker.go:19-24) without the source
`Location` (locations come from the external CST and are irrelevant to the
checker rules verified here). `c.error(...)` leaves `Expected`/`Actual` at
their zero value, embedded as `Ty.nil`. -/
structure TypeError where
  message : String
  expected : Ty
  actual : Ty
deriving Repr

/-- Embeds the operator dispatch of `Checker.checkBinaryExpr`
(_checker.go:326-408), applied to the already-checked operand types
(`leftType`, `rightType`; `Ty.nil` embeds a nil result of
`CheckExpression`). Returns the appended `TypeError`s and the derived
type (`Ty.nil` for Go's `return nil`). -/
def checkBinaryOp (operator : String) (leftType rightType : Ty) : List TypeError × Ty :=
  match operator with
  | "==" | "!=" | ">" | "<" | ">=" | "<=" =>
      if !leftType.isNil && !rightType.isNil && !TypesEqual leftType rightType then
        ([⟨"cannot compare " ++ typeString leftType ++ " with " ++ typeString rightType,
           leftType, rightType⟩], Ty.nil)
      else
        ([], Ty.primitive "Bool")
  | "&&" | "||" =>
      let boolType := Ty.primitive "Bool"
      if !leftType.isNil && !TypesEqual boolType leftType then
        ([⟨"expected Bool for logical operator", boolType, leftType⟩], Ty.nil)
      else if !rightType.isNil && !TypesEqual boolType rightType then
        ([⟨"expected Bool for logical operator", boolType, rightType⟩], Ty.nil)
      else
        ([], boolType)
  | "+" | "-" | "*" | "/" | "%" | "**" =>
      if !leftType.isNil && !rightType.isNil then
        match leftType, rightType with
        | Ty.primitive ln, Ty.primitive rn =>
            if !IsNumericType (Ty.primitive ln) || !IsNumericType (Ty.primitive rn) then
              ([⟨"cannot perform arithmetic on " ++ typeString (Ty.primitive ln) ++ " and " ++
                 typeString (Ty.primitive rn), Ty.primitive ln, Ty.primitive rn⟩], Ty.nil)
            else if ln != rn then
              ([⟨"cannot perform arithmetic on " ++ typeString (Ty.primitive ln) ++ " and " ++
                 typeString (Ty.primitive rn), Ty.primitive ln, Ty.primitive rn⟩], Ty.nil)
            else if !TypesEqual (Ty.primitive ln) (Ty.primitive rn) then
              ([⟨"mismatched types in arithmetic: " ++ typeString (Ty.primitive ln) ++ " and " ++
                 typeString (Ty.primitive rn), Ty.primitive ln, Ty.primitive rn⟩], Ty.nil)
            else
              ([], leftType)
        | _, _ =>
            ([⟨"cannot perform arithmetic on " ++ typeString leftType ++ " and " ++
               typeString rightType, leftType, rightType⟩], Ty.nil)
      else
        ([], leftType)
  | "<=>" =>
      ([], Ty.primitive "Int")
  | "++" =>
      match leftType, rightType with
      | Ty.array leftElementType, Ty.array rightElementType =>
          if !TypesEqual leftElementType rightElementType then
            ([⟨"cannot concatenate arrays with different element types: " ++
               typeString leftElementType ++ " and " ++ typeString rightElementType,
               leftElementType, rightElementType⟩], Ty.nil)
          else
            ([], leftType)
      | _, _ =>
          ([⟨"cannot concatenate " ++ typeString leftType ++ " and " ++ typeString rightType,
             Ty.array Ty.nil, leftType⟩], Ty.nil)
  | _ =>
      ([⟨"unknown binary operator: " ++ operator, Ty.nil, Ty.nil⟩], Ty.nil)

/-- The argument loop of `Checker.checkFunctionCall` (_checker.go:292-302):
one error per position where both the checked argument type and the
declared parameter type are non-nil and `TypesEqual` rejects them. `i` is
the Go loop index (messages print `i+1`). -/
def checkCallArgumentsLoop : List (String × Ty) → List Ty → Nat → List TypeError
  | (_, expectedType) :: ps, argType :: args, i =>
      (if !argType.isNil && !expectedType.isNil && !TypesEqual expectedType argType then
        [⟨"argument " ++ toString (i + 1) ++ ": expected " ++ typeString expectedType ++
          " but got " ++ typeString argType, expectedType, argType⟩]
       else []) ++ checkCallArgumentsLoop ps args (i + 1)
  | _, _, _ => []

/-- Embeds the tail of `Checker.checkFunctionCall` (_checker.go:285-304),
after the callee has resolved to a `FunctionType` with the given parameter
list and return type and the arguments have been checked to `argTypes`.
Returns the appended errors and the call's derived type. -/
def checkFunctionCallArgs (parameterTypes : List (String × Ty)) (returnType : Ty)
    (argTypes : List Ty) : List TypeError × Ty :=
  if argTypes.length != parameterTypes.length then
    ([⟨"expected " ++ toString parameterTypes.length ++ " arguments but got " ++
       toString argTypes.length, Ty.nil, Ty.nil⟩], returnType)
  else
    (checkCallArgumentsLoop parameterTypes argTypes 0, returnType)

/-- Embeds `symbols.Location` (unnamed symbols.go snapshot and
`pkg/ast`): file plus 1-based start/end line and column. -/
structure Location where
  file : String
  startLine : Nat
  startCol : Nat
  endLine : Nat
  endCol : Nat
deriving Repr, DecidableEq

/-- Embeds the `ast.Named` / `symbols.Symbol` interface view of a
declaration: the `GetName()` and `GetLocation()` results the scope uses.
Scope and registry entries reference nodes only through this view. -/
structure Named where
  name : String
  location : Location
deriving Repr, DecidableEq

/-- Embeds the `fmt.Errorf("symbol %q already defined at %v", name,
existing.GetLocation())` error of `Scope.Define`
(pkg/ast/symbols/table.go:44) with its payload kept structured: the
colliding name and the original definition's location. -/
structure DefineError where
  name : String
  location : Location
deriving Repr, DecidableEq

/-- Embeds `symbols.ScopeKind` (table.go:17-25). -/
inductive ScopeKind where
  | scopeGlobal
  | scopeModule
  | scopeFunction
  | scopeBlock
  | scopeLoop
deriving Repr, DecidableEq

/-- Embeds `symbols.Scope` (table.go:10-15): parent link and the
name-to-node map (`map[string]ast.Named`, embedded as an association
list). The `Children` back-pointer list is write-only in `Define` /
`Lookup` / `LookupLocal` and is omitted (it would form a pointer cycle
with `Parent`). -/
inductive Scope where
  | mk (parent : Option Scope) (symbols : List (String × Named)) (kind : ScopeKind)

def Scope.parent : Scope → Option Scope
  | .mk p _ _ => p

def Scope.symbols : Scope → List (String × Named)
  | .mk _ s _ => s

def Scope.kind : Scope → ScopeKind
  | .mk _ _ k => k

/-- Embeds `Scope.Define` (pkg/ast/symbols/table.go:41-48, identical in the
unnamed symbols snapshot): fails with the original definition's location
when the name is already bound, otherwise inserts. The Go method mutates
the receiver and returns `error`; this is embedded as returning the
updated scope together with the optional error. -/
def Scope.define (s : Scope) (node : Named) : Scope × Option DefineError :=
  match s.symbols.lookup node.name with
  | some existing => (s, some ⟨node.name, existing.location⟩)
  | none =>
      match s with
      | .mk p syms k => (.mk p ((node.name, node) :: syms) k, none)

/-- Embeds `Scope.Lookup` (table.go:51-59): current scope first, then the
parent chain. -/
def Scope.lookup : Scope → String → Option Named
  | .mk p syms _, name =>
      match syms.lookup name, p with
      | some sym, _ => some sym
      | none, some parentScope => parentScope.lookup name
      | none, none => none

/-- Embeds `Scope.LookupLocal` (table.go:62-65): current scope only. -/
def Scope.lookupLocal (s : Scope) (name : String) : Option Named :=
  s.symbols.lookup name

/-- Go `st.Types[sym.Name] = sym` map upsert on an association list. -/
def mapUpdate : List (String × Named) → String → Named → List (String × Named)
  | [], k, v => [(k, v)]
  | (k_, v_) :: rest, k, v =>
      if k_ == k then (k, v) :: rest else (k_, v_) :: mapUpdate rest k v

/-- Embeds `symbols.SymbolTable` of the unnamed symbols snapshot
(part_011:64-72): global scope plus quick-lookup registries `Types`,
`Functions`, `Traits` (maps) and `TraitImpls` (a list, "because keys are
complex"). Registry values are the registered symbols through their
`Named` view. -/
structure SymbolTable where
  globalScope : Scope
  types : List (String × Named)
  functions : List (String × Named)
  traits : List (String × Named)
  traitImpls : List Named

/-- Embeds `SymbolTable.RegisterType` (part_011:85-91; the
pkg/ast/symbols/table.go:86-92 version is identical in structure): scope
`Define` first; on failure the error is returned and the registry update
is skipped. -/
def SymbolTable.registerType (st : SymbolTable) (sym : Named) :
    SymbolTable × Option DefineError :=
  match st.globalScope.define sym with
  | (gs, some e) => ({ st with globalScope := gs }, some e)
  | (gs, none) =>
      ({ st with globalScope := gs, types := mapUpdate st.types sym.name sym }, none)

/-- Embeds `SymbolTable.RegisterFunction` (part_011:94-100,
table.go:95-101). -/
def SymbolTable.registerFunction (st : SymbolTable) (sym : Named) :
    SymbolTable × Option DefineError :=
  match st.globalScope.define sym with
  | (gs, some e) => ({ st with globalScope := gs }, some e)
  | (gs, none) =>
      ({ st with globalScope := gs, functions := mapUpdate st.functions sym.name sym }, none)

/-- Embeds `SymbolTable.RegisterTrait` (part_011:103-109). -/
def SymbolTable.registerTrait (st : SymbolTable) (sym : Named) :
    SymbolTable × Option DefineError :=
  match st.globalScope.define sym with
  | (gs, some e) => ({ st with globalScope := gs }, some e)
  | (gs, none) =>
      ({ st with globalScope := gs, traits := mapUpdate st.traits sym.name sym }, none)

/-- Embeds `SymbolTable.RegisterTraitImpl` (part_011:112-118); the
`TraitImpls` registry is an append-only list. -/
def SymbolTable.registerTraitImpl (st : SymbolTable) (sym : Named) :
    SymbolTable × Option DefineError :=
  match st.globalScope.define sym with
  | (gs, some e) => ({ st with globalScope := gs }, some e)
  | (gs, none) =>
      ({ st with globalScope := gs, traitImpls := st.traitImpls ++ [sym] }, none)

/-- Embeds the `symbols.SymbolTable` of pkg/ast/symbols/table.go:69-75
(the AST-mediated snapshot): global scope plus `Types` / `Functions`
quick-lookup registries. There is no current-scope field. -/
structure AstSymbolTable where
  globalScope : Scope
  types : List (String × Named)
  functions : List (String × Named)

/-- Embeds `SymbolTable.RegisterVariable` (pkg/ast/symbols/table.go:104-106):
`return st.GlobalScope.Define(node)` — the node is always defined in the
global scope; no nested scope is consulted or created. -/
def AstSymbolTable.registerVariable (st : AstSymbolTable) (node : Named) :
    AstSymbolTable × Option DefineError :=
  match st.globalScope.define node with
  | (gs, e) => ({ st with globalScope := gs }, e)

/-- Embeds the tree-sitter CST node interface the Collector consumes
(§6 input contract): a kind tag, the node's source text (`c.nodeText`),
the named/anonymous flag, the positional child list (`Child(i)` /
`ChildCount`) and the named-field children (`ChildByFieldName`). -/
inductive CstNode where
  | mk (kind : String) (text : String) (isNamed : Bool)
       (children : List CstNode) (fields : List (String × CstNode))

def CstNode.kind : CstNode → String
  | .mk k _ _ _ _ => k

def CstNode.text : CstNode → String
  | .mk _ t _ _ _ => t

def CstNode.isNamed : CstNode → Bool
  | .mk _ _ b _ _ => b

def CstNode.children : CstNode → List CstNode
  | .mk _ _ _ ch _ => ch

def CstNode.fields : CstNode → List (String × CstNode)
  | .mk _ _ _ _ f => f

/-- tree-sitter `node.ChildByFieldName(name)`; a nil result embeds as
`none`. -/
def childByFieldName (n : CstNode) (fieldName : String) : Option CstNode :=
  n.fields.lookup fieldName

namespace Collector

mutual

/-- Embeds `Collector.parseType` of the AST-mediated collector
(pkg/analyzer/collector/collector.go:156-180): nil guard, primitive
keywords, `user_defined_type_name` → `Unresolved`, `generic_type` →
`Generic`, array/map recursion, and an explicit collection error for an
unknown kind. Collection errors are state-passed as a string list. -/
def parseType (errors : List String) (node : Option CstNode) : List String × Ty :=
  match node with
  | none => (errors, Ty.nil)
  | some n =>
      match n.kind with
      | "signed_integer_type" | "unsigned_integer_type" => (errors, Ty.primitive n.text)
      | "float_type" => (errors, Ty.primitive n.text)
      | "string_type" => (errors, Ty.primitive "String")
      | "boolean_type" => (errors, Ty.primitive "Bool")
      | "user_defined_type_name" => (errors, Ty.unresolved n.text)
      | "generic_type" => (errors, Ty.generic n.text)
      | "array_type" => parseArrayType errors n
      | "map_type" => parseMapType errors n
      | _ => (errors ++ ["parseType: unknown type node kind: " ++ n.kind], Ty.nil)
termination_by sizeOf node
decreasing_by all_goals (simp_wf <;> omega)

/-- Embeds `Collector.parseArrayType` (collector/collector.go:182-190):
its `for i` loop returns on the first named child, wrapping it as the
element type; with no named child the result is `ArrayType{}` (nil
element). -/
def parseArrayType (errors : List String) (n : CstNode) : List String × Ty :=
  arrayChildrenLoop errors n.children
termination_by sizeOf n
decreasing_by all_goals (simp_wf <;> cases n <;> simp [CstNode.children] <;> omega)

/-- The child loop of `parseArrayType`. -/
def arrayChildrenLoop (errors : List String) : List CstNode → List String × Ty
  | [] => (errors, Ty.array Ty.nil)
  | c :: cs =>
      if c.isNamed then
        match parseType errors (some c) with
        | (errors2, t) => (errors2, Ty.array t)
      else arrayChildrenLoop errors cs
termination_by l => sizeOf l
decreasing_by all_goals (simp_wf <;> first
  | omega
  | (cases cs <;> simp <;> omega))

/-- Embeds `Collector.parseMapType` (collector/collector.go:231-251):
starts from `MapType{}` (nil key and value) and walks the children. -/
def parseMapType (errors : List String) (n : CstNode) : List String × Ty :=
  match mapChildrenLoop errors Ty.nil Ty.nil n.children with
  | (errors2, kt, vt) => (errors2, Ty.map kt vt)
termination_by sizeOf n
decreasing_by all_goals (simp_wf <;> cases n <;> simp [CstNode.children] <;> omega)

/-- The outer `for i` loop of `parseMapType`: `key_type` / `value_type`
children update the key/value slot via the inner loop. -/
def mapChildrenLoop (errors : List String) (kt vt : Ty) :
    List CstNode → List String × Ty × Ty
  | [] => (errors, kt, vt)
  | c :: cs =>
      if c.kind == "key_type" then
        match innerTypeLoop errors kt c.children with
        | (errors2, kt2) => mapChildrenLoop errors2 kt2 vt cs
      else if c.kind == "value_type" then
        match innerTypeLoop errors vt c.children with
        | (errors2, vt2) => mapChildrenLoop errors2 kt vt2 cs
      else mapChildrenLoop errors kt vt cs
termination_by l => sizeOf l
decreasing_by all_goals (simp_wf <;> first
  | omega
  | (cases c <;> simp [CstNode.children] <;> omega))

/-- The inner `for j` loop of `parseMapType`: every named child is parsed
(accumulating any errors) and the last named child's type wins. -/
def innerTypeLoop (errors : List String) (cur : Ty) :
    List CstNode → List String × Ty
  | [] => (errors, cur)
  | c :: cs =>
      if c.isNamed then
        match parseType errors (some c) with
        | (errors2, t) => innerTypeLoop errors2 t cs
      else innerTypeLoop errors cur cs
termination_by l => sizeOf l
decreasing_by all_goals (simp_wf <;> first
  | omega
  | (cases c <;> simp [CstNode.children] <;> omega)
  | (cases cs <;> simp <;> omega))

end

/-- Embeds `Collector.parseParameterType` of the AST-mediated collector
(pkg/analyzer/collector/collector.go:214-229): a missing `type` field
child appends a recoverable collection error and returns the zero
`ParameterType{}` (empty modifier, nil type); the pass continues. -/
def parseParameterType (errors : List String) (n : CstNode) :
    List String × (String × Ty) :=
  let modifier := match childByFieldName n "modifier" with
                  | some m => m.text
                  | none => ""
  match childByFieldName n "type" with
  | none => (errors ++ ["parseParameterType: type node is nil"], ("", Ty.nil))
  | some typeNode =>
      match parseType errors (some typeNode) with
      | (errors2, t) => (errors2, (modifier, t))

end Collector

namespace LegacyCollector

mutual

/-- Embeds `Collector.parseType` of the legacy CST-walking collector
(pkg/analyzer/collector.go:328-364). No nil guard; `string_type` maps to
"Str" (not "String"); `function_type` and `field_type` have cases; an
unknown kind silently returns nil, with no recorded error. `Except
String` threads a Go panic (raised only in `parseParameterType`) as
`.error`. -/
def parseType (n : CstNode) : Except String Ty :=
  match n.kind with
  | "signed_integer_type" | "unsigned_integer_type" => .ok (Ty.primitive n.text)
  | "float_type" => .ok (Ty.primitive n.text)
  | "string_type" => .ok (Ty.primitive "Str")
  | "boolean_type" => .ok (Ty.primitive "Bool")
  | "generic_type" => .ok (Ty.generic n.text)
  | "array_type" => arrayChildrenLoop n.children
  | "user_defined_type_name" => .ok (Ty.unresolved n.text)
  | "function_type" => parseFunctionType n
  | "map_type" => parseMapType n
  | "field_type" => fieldChildrenLoop n.children
  | _ => .ok Ty.nil
termination_by (sizeOf n, 1)
decreasing_by all_goals (simp_wf; first
  | (apply Prod.Lex.right; omega)
  | (apply Prod.Lex.left; cases n <;> simp [CstNode.children] <;> omega))

/-- The `for i` loop of the legacy `parseType`'s `array_type` case
(collector.go:342-347): the first named child becomes the element type;
with no named child the case falls through to `return nil`. -/
def arrayChildrenLoop : List CstNode → Except String Ty
  | [] => .ok Ty.nil
  | c :: cs =>
      if c.isNamed then
        match parseType c with
        | .error e => .error e
        | .ok t => .ok (Ty.array t)
      else arrayChildrenLoop cs
termination_by l => (sizeOf l, 0)
decreasing_by all_goals (apply Prod.Lex.left; simp <;> omega)

/-- The `for i` loop of the legacy `parseType`'s `field_type` case
(collector.go:354-361): `field_type` wraps the actual type; with no named
child the case falls through to `return nil`. -/
def fieldChildrenLoop : List CstNode → Except String Ty
  | [] => .ok Ty.nil
  | c :: cs =>
      if c.isNamed then parseType c
      else fieldChildrenLoop cs
termination_by l => (sizeOf l, 0)
decreasing_by all_goals (apply Prod.Lex.left; simp <;> omega)

/-- Embeds the legacy `Collector.parseFunctionType`
(pkg/analyzer/collector.go:366-386). -/
def parseFunctionType (n : CstNode) : Except String Ty :=
  match hp : childByFieldName n "parameter_types" with
  | some parameterTypes =>
      match parameterListLoop parameterTypes.children with
      | .error e => .error e
      | .ok ps =>
          match hr : childByFieldName n "return_type" with
          | some returnType =>
              match parseType returnType with
              | .error e => .error e
              | .ok r => .ok (Ty.function ps r)
          | none => .ok (Ty.function ps Ty.nil)
  | none =>
      match hr : childByFieldName n "return_type" with
      | some returnType =>
          match parseType returnType with
          | .error e => .error e
          | .ok r => .ok (Ty.function [] r)
      | none => .ok (Ty.function [] Ty.nil)
termination_by (sizeOf n, 0)
decreasing_by all_goals
  (apply Prod.Lex.left
   have hmem : ∀ (l : List (String × CstNode)) (k : String) (c : CstNode),
       l.lookup k = some c → sizeOf c < sizeOf l := by
     intro l
     induction l with
     | nil => intro k c h; simp [List.lookup] at h
     | cons hd tl ih =>
         intro k c h
         obtain ⟨k0, c0⟩ := hd
         rw [List.lookup] at h
         by_cases hk : k = k0
         · subst hk
           simp at h
           subst h
           simp
           omega
         · have hne : (k == k0) = false := by simp [hk]
           rw [hne] at h
           have := ih k c h
           simp
           omega
   first
   | (have h1 := hmem n.fields "parameter_types" parameterTypes hp
      cases parameterTypes <;> cases n <;>
        simp [CstNode.children, CstNode.fields] at h1 ⊢ <;> omega)
   | (have h1 := hmem n.fields "return_type" returnType hr
      cases n <;> simp [CstNode.fields] at h1 ⊢ <;> omega))

/-- The parameter loop of the legacy `parseFunctionType` (children of kind
"parameter_type", in order; collector.go:371-379). -/
def parameterListLoop : List CstNode → Except String (List (String × Ty))
  | [] => .ok []
  | c :: cs =>
      if c.kind == "parameter_type" then
        match parseParameterType c with
        | .error e => .error e
        | .ok p =>
            match parameterListLoop cs with
            | .error e => .error e
            | .ok rest => .ok (p :: rest)
      else parameterListLoop cs
termination_by l => (sizeOf l, 0)
decreasing_by all_goals (apply Prod.Lex.left; simp <;> omega)

/-- Embeds the legacy `Collector.parseParameterType`
(pkg/analyzer/collector.go:388-403): when the `type` field child is
missing the Go code panics (`panic(fmt.Sprintf("parseParameterType: type
node is nil for node: %v", node))`; the `%v` node dump is abstracted by
the node's text); the panic is embedded as `Except.error`. -/
def parseParameterType (n : CstNode) : Except String (String × Ty) :=
  let modifier := match childByFieldName n "modifier" with
                  | some m => m.text
                  | none => ""
  match ht : childByFieldName n "type" with
  | none => .error ("parseParameterType: type node is nil for node: " ++ n.text)
  | some typeNode =>
      match parseType typeNode with
      | .error e => .error e
      | .ok t => .ok (modifier, t)
termination_by (sizeOf n, 0)
decreasing_by all_goals
  (apply Prod.Lex.left
   have hmem : ∀ (l : List (String × CstNode)) (k : String) (c : CstNode),
       l.lookup k = some c → sizeOf c < sizeOf l := by
     intro l
     induction l with
     | nil => intro k c h; simp [List.lookup] at h
     | cons hd tl ih =>
         intro k c h
         obtain ⟨k0, c0⟩ := hd
         rw [List.lookup] at h
         by_cases hk : k = k0
         · subst hk
           simp at h
           subst h
           simp
           omega
         · have hne : (k == k0) = false := by simp [hk]
           rw [hne] at h
           have := ih k c h
           simp
           omega
   have h1 := hmem n.fields "type" typeNode ht
   cases n <;> simp [CstNode.fields] at h1 ⊢ <;> omega)

/-- Embeds the legacy `Collector.parseMapType`
(pkg/analyzer/collector.go:405-425). -/
def parseMapType (n : CstNode) : Except String Ty :=
  match mapChildrenLoop Ty.nil Ty.nil n.children with
  | .error e => .error e
  | .ok (kt, vt) => .ok (Ty.map kt vt)
termination_by (sizeOf n, 0)
decreasing_by all_goals (apply Prod.Lex.left; cases n <;> simp [CstNode.children] <;> omega)

/-- The outer loop of the legacy `parseMapType`. -/
def mapChildrenLoop (kt vt : Ty) : List CstNode → Except String (Ty × Ty)
  | [] => .ok (kt, vt)
  | c :: cs =>
      if c.kind == "key_type" then
        match innerTypeLoop kt c.children with
        | .error e => .error e
        | .ok kt2 => mapChildrenLoop kt2 vt cs
      else if c.kind == "value_type" then
        match innerTypeLoop vt c.children with
        | .error e => .error e
        | .ok vt2 => mapChildrenLoop kt vt2 cs
      else mapChildrenLoop kt vt cs
termination_by l => (sizeOf l, 0)
decreasing_by all_goals (apply Prod.Lex.left; first
  | (simp <;> omega)
  | (cases c <;> simp [CstNode.children] <;> omega))

/-- The inner loop of the legacy `parseMapType`: every named child is
parsed and the last named child's type wins. -/
def innerTypeLoop (cur : Ty) : List CstNode → Except String Ty
  | [] => .ok cur
  | c :: cs =>
      if c.isNamed then
        match parseType c with
        | .error e => .error e
        | .ok t => innerTypeLoop t cs
      else innerTypeLoop cur cs
termination_by l => (sizeOf l, 0)
decreasing_by all_goals (apply Prod.Lex.left; simp <;> omega)

end

end LegacyCollector

theorem sameVariant_comm (a b : Ty) : sameVariant a b = sameVariant b a := by
  cases a <;> cases b <;> rfl

/-- Any pair whose left component has no `switch` case, or whose components
have different dynamic types, makes `TypesEqual` return false. -/
theorem typesEqual_false_of_mismatch (a b : Ty)
    (h : knownVariant a = false ∨ sameVariant a b = false) :
    TypesEqual a b = false := by
  cases a <;> cases b <;> simp_all [TypesEqual, knownVariant, sameVariant]

theorem typesEqual_nil_right (b : Ty) : TypesEqual b Ty.nil = false := by
  apply typesEqual_false_of_mismatch
  cases b <;> simp [sameVariant, knownVariant]

theorem typesEqual_generic_right (b : Ty) (n : String) :
    TypesEqual b (Ty.generic n) = false := by
  apply typesEqual_false_of_mismatch
  cases b <;> simp [sameVariant, knownVariant]

theorem typesEqual_unresolved_right (b : Ty) (n : String) :
    TypesEqual b (Ty.unresolved n) = false := by
  apply typesEqual_false_of_mismatch
  cases b <;> simp [sameVariant, knownVariant]

/-- Unfolds the struct-field loop of `TypesEqual` (unify.go:31-35) into a
logical characterization: every field of the left map must be found in the
right map with a `TypesEqual` type. -/
theorem fieldsEqual_iff (af bf : List (String × Ty)) :
    fieldsEqual af bf = true ↔
      ∀ p ∈ af, ∃ bft, bf.lookup p.1 = some bft ∧ TypesEqual p.2 bft = true := by
  induction af with
  | nil => simp [fieldsEqual]
  | cons head tail ih =>
      obtain ⟨n, t⟩ := head
      cases h : bf.lookup n with
      | none => simp [fieldsEqual, h]
      | some bft => simp [fieldsEqual, h, ih]


/-- Closed evaluation helper facts are proved with `simp` using the
equation lemmas of the well-founded-recursive definitions. -/
theorem fieldsEqual_nil_right (n : String) (t : Ty) (afs : List (String × Ty)) :
    fieldsEqual ((n, t) :: afs) [] = false := by
  simp [fieldsEqual, List.lookup]

/-- Counterexample to C1 as stated: two `Struct` values with the same name
but different field maps on which `TypesEqual` returns false — the struct
case of `TypesEqual` does compare field maps (unify.go:31-35). -/
theorem struct_same_name_different_fields_unequal :
    TypesEqual (Ty.struct "Point" [("x", Ty.primitive "Int")]) (Ty.struct "Point" []) = false := by
  simp [TypesEqual, fieldsEqual, List.lookup]

/-- C1 (amended): `Data` types compare by name alone, regardless of their
constructor maps; `Struct` types compare by name **and** by fields — the
comparison succeeds iff the names match and every field of the left
operand is present in the right operand's field map with a `TypesEqual`
type. Same-name structs with different field maps can compare unequal. -/
theorem struct_data_equality_nominal :
    (∀ an acs bn bcs, TypesEqual (Ty.data an acs) (Ty.data bn bcs) = true ↔ an = bn) ∧
    (∀ an af bn bf, TypesEqual (Ty.struct an af) (Ty.struct bn bf) = true ↔
      (an = bn ∧ ∀ p ∈ af, ∃ bft, bf.lookup p.1 = some bft ∧ TypesEqual p.2 bft = true)) := by
  constructor
  · intro an acs bn bcs
    simp [TypesEqual]
  · intro an af bn bf
    by_cases h : an = bn
    · subst h
      simp [TypesEqual, fieldsEqual_iff]
    · simp [TypesEqual, h]

/-- Counterexample to C2 as stated: two `Generic` types with the same name
on which `TypesEqual` returns false — `GenericType` has no case in the
`TypesEqual` switch, so it hits `default` (unify.go:58-59). -/
theorem generic_self_equality_false :
    TypesEqual (Ty.generic "t") (Ty.generic "t") = false := by
  simp [TypesEqual]

/-- C2 (amended): `TypesEqual` returns false on every pair involving a
`Generic` type, in either argument position — even when the two names
coincide. A generic is equal to nothing, generic or concrete. -/
theorem generic_never_equal (n : String) (b : Ty) :
    TypesEqual (Ty.generic n) b = false ∧ TypesEqual b (Ty.generic n) = false := by
  exact ⟨by simp [TypesEqual], typesEqual_generic_right b n⟩

/-- C8: `TypesEqual` is total by construction (it is a terminating Lean
function over every `Ty`, including nil components and `Unresolved`
values), and it returns false on every unknown or incomparable
combination: whenever the left operand has no switch case (nil, Generic,
Unresolved) or the two operands are of different variants. -/
theorem typesEqual_total_mismatch_false (a b : Ty)
    (h : knownVariant a = false ∨ sameVariant a b = false) :
    TypesEqual a b = false :=
  typesEqual_false_of_mismatch a b h

/-- Witness for C8 at concrete inputs: nil against `Int`, and a generic
against a struct. -/
theorem typesEqual_total_mismatch_witness :
    (knownVariant Ty.nil = false ∨ sameVariant Ty.nil (Ty.primitive "Int") = false) ∧
    TypesEqual Ty.nil (Ty.primitive "Int") = false ∧
    TypesEqual (Ty.unresolved "Tree") (Ty.struct "Tree" []) = false :=
  ⟨Or.inl (by simp [knownVariant]),
   typesEqual_total_mismatch_false Ty.nil (Ty.primitive "Int") (Or.inl (by simp [knownVariant])),
   typesEqual_total_mismatch_false (Ty.unresolved "Tree") (Ty.struct "Tree" [])
     (Or.inl (by simp [knownVariant]))⟩

theorem string_beq_comm (a b : String) : (a == b) = (b == a) := by
  by_cases h : a = b
  · subst h; rfl
  · have h1 : (a == b) = false := by simpa using h
    have h2 : (b == a) = false := by simpa using Ne.symm h
    rw [h1, h2]

theorem lookup_isSome_of_mem (f : List (String × Ty)) (p : String × Ty) (hp : p ∈ f) :
    (f.lookup p.1).isSome = true := by
  induction f with
  | nil => simp at hp
  | cons hd tl ih =>
      obtain ⟨k, v⟩ := hd
      rcases List.mem_cons.mp hp with h | h
      · subst h
        simp [List.lookup]
      · by_cases hk : p.1 = k
        · simp [List.lookup, hk]
        · have hne : (p.1 == k) = false := by simpa using hk
          simp only [List.lookup, hne]
          exact ih h

/-- In a duplicate-free field map, looking up any entry's key finds that
entry's value. -/
theorem lookup_self (f : List (String × Ty)) (hu : uniqueKeys f = true)
    (p : String × Ty) (hp : p ∈ f) : f.lookup p.1 = some p.2 := by
  induction f with
  | nil => simp at hp
  | cons hd tl ih =>
      obtain ⟨k, v⟩ := hd
      rw [uniqueKeys] at hu
      have hu1 : (tl.lookup k).isNone = true ∧ uniqueKeys tl = true := by
        simpa [Bool.and_eq_true] using hu
      rcases List.mem_cons.mp hp with h | h
      · subst h
        simp [List.lookup]
      · by_cases hk : p.1 = k
        · exfalso
          have hs := lookup_isSome_of_mem tl p h
          rw [hk] at hs
          rw [Option.isNone_iff_eq_none] at hu1
          rw [hu1.1] at hs
          simp at hs
        · have hne : (p.1 == k) = false := by simpa using hk
          simp [List.lookup, hne]
          exact ih hu1.2 h

mutual

/-- Reflexivity of `TypesEqual` on self-comparable types. -/
theorem typesEqual_refl : ∀ t : Ty, selfComparable t = true → TypesEqual t t = true
  | Ty.primitive n, _ => by simp [TypesEqual]
  | Ty.array e, h => by
      have h1 : selfComparable e = true := by simpa [selfComparable] using h
      simp [TypesEqual]
      exact typesEqual_refl e h1
  | Ty.function ps r, h => by
      have h1 : parametersSelfComparable ps = true ∧ selfComparable r = true := by
        simpa [selfComparable, Bool.and_eq_true] using h
      simp [TypesEqual]
      exact ⟨parametersEqual_refl ps h1.1, typesEqual_refl r h1.2⟩
  | Ty.struct n f, h => by
      have h1 : uniqueKeys f = true ∧ fieldsSelfComparable f = true := by
        simpa [selfComparable, Bool.and_eq_true] using h
      simp [TypesEqual]
      exact fieldsEqual_refl f f (fun p hp => lookup_self f h1.1 p hp) h1.2
  | Ty.map k v, h => by
      have h1 : selfComparable k = true ∧ selfComparable v = true := by
        simpa [selfComparable, Bool.and_eq_true] using h
      simp [TypesEqual]
      exact ⟨typesEqual_refl k h1.1, typesEqual_refl v h1.2⟩
  | Ty.tuple es, h => by
      have h1 : elementsSelfComparable es = true := by simpa [selfComparable] using h
      simp [TypesEqual]
      exact elementsEqual_refl es h1
  | Ty.data n cs, _ => by simp [TypesEqual]
  | Ty.nil, h => by simp [selfComparable] at h
  | Ty.generic n, h => by simp [selfComparable] at h
  | Ty.unresolved n, h => by simp [selfComparable] at h
termination_by t _ => sizeOf t
decreasing_by all_goals (simp_wf <;> omega)

theorem parametersEqual_refl :
    ∀ ps : List (String × Ty), parametersSelfComparable ps = true →
      parametersEqual ps ps = true
  | [], _ => by simp [parametersEqual]
  | (m, t) :: ps, h => by
      have h1 : selfComparable t = true ∧ parametersSelfComparable ps = true := by
        simpa [parametersSelfComparable, Bool.and_eq_true] using h
      simp [parametersEqual]
      exact ⟨typesEqual_refl t h1.1, parametersEqual_refl ps h1.2⟩
termination_by ps _ => sizeOf ps
decreasing_by all_goals (simp_wf <;> omega)

theorem elementsEqual_refl :
    ∀ es : List Ty, elementsSelfComparable es = true → elementsEqual es es = true
  | [], _ => by simp [elementsEqual]
  | t :: ts, h => by
      have h1 : selfComparable t = true ∧ elementsSelfComparable ts = true := by
        simpa [elementsSelfComparable, Bool.and_eq_true] using h
      simp [elementsEqual]
      exact ⟨typesEqual_refl t h1.1, elementsEqual_refl ts h1.2⟩
termination_by es _ => sizeOf es
decreasing_by all_goals (simp_wf <;> omega)

theorem fieldsEqual_refl :
    ∀ (sub full : List (String × Ty)),
      (∀ p ∈ sub, full.lookup p.1 = some p.2) → fieldsSelfComparable sub = true →
      fieldsEqual sub full = true
  | [], _, _, _ => by simp [fieldsEqual]
  | (n, t) :: sub, full, hl, hc => by
      have h1 : selfComparable t = true ∧ fieldsSelfComparable sub = true := by
        simpa [fieldsSelfComparable, Bool.and_eq_true] using hc
      have h2 : full.lookup n = some t := hl (n, t) (by simp)
      simp [fieldsEqual, h2]
      exact ⟨typesEqual_refl t h1.1,
             fieldsEqual_refl sub full (fun p hp => hl p (by simp [hp])) h1.2⟩
termination_by sub _ _ _ => sizeOf sub
decreasing_by all_goals (simp_wf <;> omega)

end

/-- Different-variant pairs are `TypesEqual`-symmetric (both directions
are false). -/
theorem typesEqual_symm_of_diff (a b : Ty) (hd : sameVariant a b = false) :
    TypesEqual a b = TypesEqual b a := by
  rw [typesEqual_false_of_mismatch a b (Or.inr hd),
      typesEqual_false_of_mismatch b a (Or.inr (by rw [sameVariant_comm]; exact hd))]

mutual

/-- Symmetry of `TypesEqual` when the left operand is struct-free. -/
theorem typesEqual_symm : ∀ a b : Ty, structFree a = true → TypesEqual a b = TypesEqual b a
  | Ty.nil, b, _ => by
      rw [typesEqual_nil_right b]
      simp [TypesEqual]
  | Ty.generic n, b, _ => by
      rw [typesEqual_generic_right b n]
      simp [TypesEqual]
  | Ty.unresolved n, b, _ => by
      rw [typesEqual_unresolved_right b n]
      simp [TypesEqual]
  | Ty.primitive an, b, _ => by
      cases b <;> simp [TypesEqual]
      exact eq_comm
  | Ty.array ae, b, h => by
      have h1 : structFree ae = true := by simpa [structFree] using h
      cases b <;> simp [TypesEqual]
      exact typesEqual_symm ae _ h1
  | Ty.function aps ar, b, h => by
      have h1 : parametersStructFree aps = true ∧ structFree ar = true := by
        simpa [structFree, Bool.and_eq_true] using h
      cases b <;> simp [TypesEqual]
      rename_i bps br
      by_cases hl : aps.length = bps.length
      · simp [hl]
        rw [parametersEqual_symm aps bps h1.1, typesEqual_symm ar br h1.2]
      · simp [hl, Ne.symm hl]
  | Ty.struct n f, b, h => by
      simp [structFree] at h
  | Ty.map ak av, b, h => by
      have h1 : structFree ak = true ∧ structFree av = true := by
        simpa [structFree, Bool.and_eq_true] using h
      cases b <;> simp [TypesEqual]
      rename_i bk bv
      rw [typesEqual_symm ak bk h1.1, typesEqual_symm av bv h1.2]
  | Ty.tuple aes, b, h => by
      have h1 : elementsStructFree aes = true := by simpa [structFree] using h
      cases b <;> simp [TypesEqual]
      rename_i bes
      by_cases hl : aes.length = bes.length
      · simp [hl]
        rw [elementsEqual_symm aes bes h1]
      · simp [hl, Ne.symm hl]
  | Ty.data an acs, b, _ => by
      cases b <;> simp [TypesEqual]
      exact eq_comm
termination_by a _ _ => sizeOf a
decreasing_by all_goals (simp_wf <;> omega)

theorem parametersEqual_symm :
    ∀ as_ bs : List (String × Ty), parametersStructFree as_ = true →
      parametersEqual as_ bs = parametersEqual bs as_
  | [], [], _ => by simp [parametersEqual]
  | [], _ :: _, _ => by simp [parametersEqual]
  | _ :: _, [], _ => by simp [parametersEqual]
  | (am, at_) :: as_, (bm, bt) :: bs, h => by
      have h1 : structFree at_ = true ∧ parametersStructFree as_ = true := by
        simpa [parametersStructFree, Bool.and_eq_true] using h
      simp [parametersEqual]
      rw [typesEqual_symm at_ bt h1.1, parametersEqual_symm as_ bs h1.2]
termination_by as_ _ _ => sizeOf as_
decreasing_by all_goals (simp_wf <;> omega)

theorem elementsEqual_symm :
    ∀ aes bes : List Ty, elementsStructFree aes = true →
      elementsEqual aes bes = elementsEqual bes aes
  | [], [], _ => by simp [elementsEqual]
  | [], _ :: _, _ => by simp [elementsEqual]
  | _ :: _, [], _ => by simp [elementsEqual]
  | ae :: aes, be :: bes, h => by
      have h1 : structFree ae = true ∧ elementsStructFree aes = true := by
        simpa [elementsStructFree, Bool.and_eq_true] using h
      simp [elementsEqual]
      rw [typesEqual_symm ae be h1.1, elementsEqual_symm aes bes h1.2]
termination_by aes _ _ => sizeOf aes
decreasing_by all_goals (simp_wf <;> omega)

end

/-- Counterexample to C3 as stated: `TypesEqual` is not reflexive (a
`Generic` compared with itself yields false) and not symmetric (a struct
whose field map is a strict subset of a same-named struct's field map
compares true one way and false the other). -/
theorem typesEqual_not_refl_not_symm :
    TypesEqual (Ty.generic "a") (Ty.generic "a") = false ∧
    TypesEqual (Ty.struct "P" []) (Ty.struct "P" [("x", Ty.primitive "Int")]) = true ∧
    TypesEqual (Ty.struct "P" [("x", Ty.primitive "Int")]) (Ty.struct "P" []) = false := by
  refine ⟨?_, ?_, ?_⟩ <;> simp [TypesEqual, fieldsEqual, List.lookup]

/-- C3 (amended): `TypesEqual(t, t)` is true for every type `t` with no
nil, `Generic` or `Unresolved` component in an inspected position and
duplicate-free struct field maps; and `TypesEqual(a, b) = TypesEqual(b, a)`
for every pair whose left operand contains no `Struct` component (the
struct field-subset check is the one asymmetric case). -/
theorem typesEqual_refl_symm_conditional :
    (∀ t : Ty, selfComparable t = true → TypesEqual t t = true) ∧
    (∀ a b : Ty, structFree a = true → TypesEqual a b = TypesEqual b a) :=
  ⟨typesEqual_refl, typesEqual_symm⟩

/-- Witness for C3 at concrete inputs: reflexivity on a two-field struct
type, symmetry on an array/primitive pair. -/
theorem typesEqual_refl_symm_witness :
    TypesEqual
      (Ty.struct "Point" [("x", Ty.primitive "Int"), ("y", Ty.primitive "Int")])
      (Ty.struct "Point" [("x", Ty.primitive "Int"), ("y", Ty.primitive "Int")]) = true ∧
    TypesEqual (Ty.array (Ty.primitive "Int")) (Ty.primitive "Int") =
      TypesEqual (Ty.primitive "Int") (Ty.array (Ty.primitive "Int")) :=
  ⟨typesEqual_refl_symm_conditional.1 _
     (by simp [selfComparable, fieldsSelfComparable, uniqueKeys, List.lookup]),
   typesEqual_refl_symm_conditional.2 _ _ (by simp [structFree])⟩

/-- Counterexample to C4 as stated: for a comparison whose operand types
are both known but unequal, the checker records one error and the derived
type is nil (`return nil`, _checker.go:332), not Bool. -/
theorem comparison_mismatch_not_bool :
    (checkBinaryOp "==" (Ty.primitive "Int") (Ty.primitive "Str")).2 = Ty.nil ∧
    (checkBinaryOp "==" (Ty.primitive "Int") (Ty.primitive "Str")).2 ≠ Ty.primitive "Bool" ∧
    (checkBinaryOp "==" (Ty.primitive "Int") (Ty.primitive "Str")).1.length = 1 := by
  refine ⟨?_, ?_, ?_⟩ <;> simp [checkBinaryOp, TypesEqual, Ty.isNil]

/-- C4 (amended): for every comparison operator (`== != > < >= <=`) the
checker requires the operand types to be equal to each other: when both
operand types are known (non-nil) and not `TypesEqual`, exactly one error
is recorded and the expression's derived type is nil; in every other case
no error is recorded and the derived type is Bool. -/
theorem comparison_requires_equal_operands (op : String) (l r : Ty)
    (hop : op ∈ ["==", "!=", ">", "<", ">=", "<="]) :
    (l.isNil = false → r.isNil = false → TypesEqual l r = false →
       (checkBinaryOp op l r).1.length = 1 ∧ (checkBinaryOp op l r).2 = Ty.nil) ∧
    ((l.isNil || r.isNil || TypesEqual l r) = true →
       (checkBinaryOp op l r).1 = [] ∧
       (checkBinaryOp op l r).2 = Ty.primitive "Bool") := by
  have hcase : ∀ o : String, o = "==" ∨ o = "!=" ∨ o = ">" ∨ o = "<" ∨ o = ">=" ∨ o = "<=" →
      (checkBinaryOp o l r =
        if !l.isNil && !r.isNil && !TypesEqual l r then
          ([⟨"cannot compare " ++ typeString l ++ " with " ++ typeString r, l, r⟩], Ty.nil)
        else ([], Ty.primitive "Bool")) := by
    intro o ho
    rcases ho with h | h | h | h | h | h <;> subst h <;> rfl
  have hop2 : op = "==" ∨ op = "!=" ∨ op = ">" ∨ op = "<" ∨ op = ">=" ∨ op = "<=" := by
    simpa using hop
  rw [hcase op hop2]
  constructor
  · intro h1 h2 h3
    simp [h1, h2, h3]
  · intro h
    have hc : (!l.isNil && !r.isNil && !TypesEqual l r) = false := by
      cases hl : l.isNil <;> cases hr : r.isNil <;> cases ht : TypesEqual l r <;>
        simp_all
    simp [hc]

/-- Witness for C4: `Int == Str` records one error and derives nil;
`Int <= Int` records nothing and derives Bool. -/
theorem comparison_requires_equal_operands_witness :
    ((checkBinaryOp "==" (Ty.primitive "Int") (Ty.primitive "Str")).1.length = 1 ∧
     (checkBinaryOp "==" (Ty.primitive "Int") (Ty.primitive "Str")).2 = Ty.nil) ∧
    ((checkBinaryOp "<=" (Ty.primitive "Int") (Ty.primitive "Int")).1 = [] ∧
     (checkBinaryOp "<=" (Ty.primitive "Int") (Ty.primitive "Int")).2 = Ty.primitive "Bool") :=
  ⟨(comparison_requires_equal_operands "==" (Ty.primitive "Int") (Ty.primitive "Str")
      (by simp)).1 (by simp [Ty.isNil]) (by simp [Ty.isNil]) (by simp [TypesEqual]),
   (comparison_requires_equal_operands "<=" (Ty.primitive "Int") (Ty.primitive "Int")
      (by simp)).2 (by simp [TypesEqual])⟩

/-- The argument loop's error count equals the number of argument
positions where both types are known and `TypesEqual` rejects the pair
(the per-error messages carry the 1-based position, so only the count is
index-independent). -/
theorem checkCallArgumentsLoop_length (ps : List (String × Ty)) :
    ∀ (args : List Ty) (i : Nat),
      (checkCallArgumentsLoop ps args i).length =
        ((ps.zip args).filter
          (fun pa => !pa.2.isNil && !pa.1.2.isNil && !TypesEqual pa.1.2 pa.2)).length := by
  induction ps with
  | nil => intro args i; cases args <;> simp [checkCallArgumentsLoop]
  | cons p ps ih =>
      intro args i
      cases args with
      | nil => simp [checkCallArgumentsLoop]
      | cons a args =>
          obtain ⟨m, e⟩ := p
          by_cases hc : (!a.isNil && !e.isNil && !TypesEqual e a) = true
          · simp [checkCallArgumentsLoop, hc, List.filter_cons, ih args (i + 1)]
          · have hc2 : (!a.isNil && !e.isNil && !TypesEqual e a) = false := by
              simpa using hc
            simp [checkCallArgumentsLoop, hc2, List.filter_cons, ih args (i + 1)]

/-- C5: for a call whose callee resolved to a `Function` type, an
argument-count mismatch records exactly one arity error and the derived
type is still the declared return type; matching counts derive the
declared return type and compare each argument via `TypesEqual` against
the corresponding declared parameter type (one error per rejected,
fully-known pair). -/
theorem call_arity_and_argument_check (ps : List (String × Ty)) (ret : Ty)
    (args : List Ty) :
    (args.length ≠ ps.length →
       checkFunctionCallArgs ps ret args =
         ([⟨"expected " ++ toString ps.length ++ " arguments but got " ++
            toString args.length, Ty.nil, Ty.nil⟩], ret)) ∧
    (args.length = ps.length →
       (checkFunctionCallArgs ps ret args).2 = ret ∧
       (checkFunctionCallArgs ps ret args).1.length =
         ((ps.zip args).filter
           (fun pa => !pa.2.isNil && !pa.1.2.isNil && !TypesEqual pa.1.2 pa.2)).length) := by
  constructor
  · intro h
    simp [checkFunctionCallArgs, h]
  · intro h
    simp [checkFunctionCallArgs, h, checkCallArgumentsLoop_length]

/-- Witness for C5 at the spec's own example: `sum : (Int, Int) -> Int`
called as `sum(1)` yields exactly one arity error and still derives `Int`;
called as `sum(1, "2")` it yields exactly one argument-type error. -/
theorem call_arity_witness :
    ((checkFunctionCallArgs [("", Ty.primitive "Int"), ("", Ty.primitive "Int")]
        (Ty.primitive "Int") [Ty.primitive "Int"]).1.length = 1 ∧
     (checkFunctionCallArgs [("", Ty.primitive "Int"), ("", Ty.primitive "Int")]
        (Ty.primitive "Int") [Ty.primitive "Int"]).2 = Ty.primitive "Int") ∧
    (checkFunctionCallArgs [("", Ty.primitive "Int"), ("", Ty.primitive "Int")]
       (Ty.primitive "Int") [Ty.primitive "Int", Ty.primitive "Str"]).1.length = 1 := by
  refine ⟨⟨?_, ?_⟩, ?_⟩
  · rw [(call_arity_and_argument_check [("", Ty.primitive "Int"), ("", Ty.primitive "Int")]
        (Ty.primitive "Int") [Ty.primitive "Int"]).1 (by simp)]
    simp
  · rw [(call_arity_and_argument_check [("", Ty.primitive "Int"), ("", Ty.primitive "Int")]
        (Ty.primitive "Int") [Ty.primitive "Int"]).1 (by simp)]
  · have h2 := (call_arity_and_argument_check
        [("", Ty.primitive "Int"), ("", Ty.primitive "Int")] (Ty.primitive "Int")
        [Ty.primitive "Int", Ty.primitive "Str"]).2 (by simp)
    rw [h2.2]
    simp [TypesEqual, Ty.isNil, List.filter]

/-- A `Define` against an already-bound name returns the scope unchanged
together with an error carrying the original definition's location
(table.go:43-45). -/
theorem define_eq_of_found (s : Scope) (node existing : Named)
    (h : s.symbols.lookup node.name = some existing) :
    s.define node = (s, some ⟨node.name, existing.location⟩) := by
  simp [Scope.define, h]

/-- A `Define` against an unbound name inserts the binding and succeeds
(table.go:46-47). -/
theorem define_eq_of_not_found (s : Scope) (node : Named)
    (h : s.symbols.lookup node.name = none) :
    s.define node =
      (Scope.mk s.parent ((node.name, node) :: s.symbols) s.kind, none) := by
  cases s with
  | mk p syms k =>
      have h2 : syms.lookup node.name = none := h
      simp [Scope.define, Scope.symbols, Scope.parent, Scope.kind, h2]

/-- A local hit is also a `Lookup` hit (the scope itself is searched
before the parent chain). -/
theorem lookup_of_lookupLocal (s : Scope) (name : String) (sym : Named)
    (h : s.lookupLocal name = some sym) : s.lookup name = some sym := by
  cases s with
  | mk p syms k =>
      have h2 : syms.lookup name = some sym := h
      simp [Scope.lookup, h2]

/-- C6: a second `Define` of a name bound in the scope fails with an error
carrying the original definition's location, leaves the scope's symbol
map unchanged, and the first definition remains resolvable by `Lookup`;
`Define` of an unbound name inserts the binding and succeeds. -/
theorem scope_define_duplicate (s : Scope) (node : Named) :
    (∀ existing, s.lookupLocal node.name = some existing →
       s.define node = (s, some ⟨node.name, existing.location⟩) ∧
       (s.define node).1.lookup node.name = some existing) ∧
    (s.lookupLocal node.name = none →
       (s.define node).2 = none ∧
       (s.define node).1.lookupLocal node.name = some node) := by
  constructor
  · intro existing h
    have h2 : s.symbols.lookup node.name = some existing := h
    have hd := define_eq_of_found s node existing h2
    exact ⟨hd, by rw [hd]; exact lookup_of_lookupLocal s node.name existing h⟩
  · intro h
    have h2 : s.symbols.lookup node.name = none := h
    have hd := define_eq_of_not_found s node h2
    rw [hd]
    simp [Scope.lookupLocal, Scope.symbols, List.lookup]

/-- Witness for C6: redefining `x` fails carrying the first `x`'s
location; defining `y` in an empty scope succeeds and resolves. -/
theorem scope_define_witness :
    ((Scope.mk none [("x", ⟨"x", ⟨"f", 1, 1, 1, 2⟩⟩)] ScopeKind.scopeGlobal).define
        ⟨"x", ⟨"f", 3, 1, 3, 2⟩⟩ =
      (Scope.mk none [("x", ⟨"x", ⟨"f", 1, 1, 1, 2⟩⟩)] ScopeKind.scopeGlobal,
       some ⟨"x", ⟨"f", 1, 1, 1, 2⟩⟩)) ∧
    (((Scope.mk none [] ScopeKind.scopeGlobal).define ⟨"y", ⟨"f", 5, 1, 5, 2⟩⟩).2 = none ∧
     ((Scope.mk none [] ScopeKind.scopeGlobal).define
         ⟨"y", ⟨"f", 5, 1, 5, 2⟩⟩).1.lookupLocal "y" = some ⟨"y", ⟨"f", 5, 1, 5, 2⟩⟩) :=
  ⟨((scope_define_duplicate (Scope.mk none [("x", ⟨"x", ⟨"f", 1, 1, 1, 2⟩⟩)]
        ScopeKind.scopeGlobal) ⟨"x", ⟨"f", 3, 1, 3, 2⟩⟩).1 ⟨"x", ⟨"f", 1, 1, 1, 2⟩⟩
      (by simp [Scope.lookupLocal, Scope.symbols, List.lookup])).1,
   (scope_define_duplicate (Scope.mk none [] ScopeKind.scopeGlobal)
      ⟨"y", ⟨"f", 5, 1, 5, 2⟩⟩).2 (by simp [Scope.lookupLocal, Scope.symbols, List.lookup])⟩

/-- A map upsert makes its key resolvable to the new value. -/
theorem lookup_mapUpdate (m : List (String × Named)) (k : String) (v : Named) :
    (mapUpdate m k v).lookup k = some v := by
  induction m with
  | nil => simp [mapUpdate, List.lookup]
  | cons hd tl ih =>
      obtain ⟨k0, v0⟩ := hd
      by_cases h : k0 = k
      · simp [mapUpdate, h, List.lookup]
      · have h1 : (k0 == k) = false := by simpa using h
        have h2 : (k == k0) = false := by simpa using Ne.symm h
        simp [mapUpdate, h1, List.lookup, h2, ih]

/-- C7: every registration operation (`RegisterType`, `RegisterFunction`,
`RegisterTrait`, `RegisterTraitImpl`) performs scope `Define` first; on a
name collision it returns the duplicate error (with the original
location) and leaves the whole table — global scope and all four
registries — unchanged; on success it records no error, the symbol is in
the global scope, and the corresponding registry is updated. -/
theorem register_ops_atomic (st : SymbolTable) (sym : Named) :
    (∀ existing, st.globalScope.lookupLocal sym.name = some existing →
       st.registerType sym = (st, some ⟨sym.name, existing.location⟩) ∧
       st.registerFunction sym = (st, some ⟨sym.name, existing.location⟩) ∧
       st.registerTrait sym = (st, some ⟨sym.name, existing.location⟩) ∧
       st.registerTraitImpl sym = (st, some ⟨sym.name, existing.location⟩)) ∧
    (st.globalScope.lookupLocal sym.name = none →
       ((st.registerType sym).2 = none ∧
        (st.registerType sym).1.types.lookup sym.name = some sym ∧
        (st.registerType sym).1.globalScope.lookupLocal sym.name = some sym) ∧
       ((st.registerFunction sym).2 = none ∧
        (st.registerFunction sym).1.functions.lookup sym.name = some sym ∧
        (st.registerFunction sym).1.globalScope.lookupLocal sym.name = some sym) ∧
       ((st.registerTrait sym).2 = none ∧
        (st.registerTrait sym).1.traits.lookup sym.name = some sym ∧
        (st.registerTrait sym).1.globalScope.lookupLocal sym.name = some sym) ∧
       ((st.registerTraitImpl sym).2 = none ∧
        (st.registerTraitImpl sym).1.traitImpls = st.traitImpls ++ [sym] ∧
        (st.registerTraitImpl sym).1.globalScope.lookupLocal sym.name = some sym)) := by
  constructor
  · intro existing h
    have hd := define_eq_of_found st.globalScope sym existing h
    refine ⟨?_, ?_, ?_, ?_⟩ <;>
      simp [SymbolTable.registerType, SymbolTable.registerFunction,
            SymbolTable.registerTrait, SymbolTable.registerTraitImpl, hd]
  · intro h
    have hd := define_eq_of_not_found st.globalScope sym h
    refine ⟨⟨?_, ?_, ?_⟩, ⟨?_, ?_, ?_⟩, ⟨?_, ?_, ?_⟩, ⟨?_, ?_, ?_⟩⟩ <;>
      simp [SymbolTable.registerType, SymbolTable.registerFunction,
            SymbolTable.registerTrait, SymbolTable.registerTraitImpl, hd,
            lookup_mapUpdate, Scope.lookupLocal, Scope.symbols, List.lookup]

/-- Witness for C7: registering `Point` into a table whose scope already
binds `Point` fails with the original location and leaves the table
unchanged; registering into an empty table succeeds. -/
theorem register_ops_witness :
    ((SymbolTable.mk (Scope.mk none [("Point", ⟨"Point", ⟨"f", 1, 1, 1, 6⟩⟩)]
          ScopeKind.scopeGlobal) [] [] [] []).registerType ⟨"Point", ⟨"f", 9, 1, 9, 6⟩⟩ =
      (SymbolTable.mk (Scope.mk none [("Point", ⟨"Point", ⟨"f", 1, 1, 1, 6⟩⟩)]
          ScopeKind.scopeGlobal) [] [] [] [],
       some ⟨"Point", ⟨"f", 1, 1, 1, 6⟩⟩)) ∧
    (((SymbolTable.mk (Scope.mk none [] ScopeKind.scopeGlobal) [] [] [] []).registerTrait
        ⟨"Show", ⟨"f", 2, 1, 2, 5⟩⟩).2 = none ∧
     ((SymbolTable.mk (Scope.mk none [] ScopeKind.scopeGlobal) [] [] [] []).registerTrait
        ⟨"Show", ⟨"f", 2, 1, 2, 5⟩⟩).1.traits.lookup "Show" = some ⟨"Show", ⟨"f", 2, 1, 2, 5⟩⟩) :=
  ⟨((register_ops_atomic (SymbolTable.mk (Scope.mk none
        [("Point", ⟨"Point", ⟨"f", 1, 1, 1, 6⟩⟩)] ScopeKind.scopeGlobal) [] [] [] [])
      ⟨"Point", ⟨"f", 9, 1, 9, 6⟩⟩).1 ⟨"Point", ⟨"f", 1, 1, 1, 6⟩⟩
      (by simp [Scope.lookupLocal, Scope.symbols, List.lookup])).1,
   ⟨(((register_ops_atomic (SymbolTable.mk (Scope.mk none [] ScopeKind.scopeGlobal) [] [] [] [])
        ⟨"Show", ⟨"f", 2, 1, 2, 5⟩⟩).2
       (by simp [Scope.lookupLocal, Scope.symbols, List.lookup])).2.2.1).1,
    (((register_ops_atomic (SymbolTable.mk (Scope.mk none [] ScopeKind.scopeGlobal) [] [] [] [])
        ⟨"Show", ⟨"f", 2, 1, 2, 5⟩⟩).2
       (by simp [Scope.lookupLocal, Scope.symbols, List.lookup])).2.2.1).2.1⟩⟩

/-- C10: `RegisterVariable` always defines the node in the global scope —
no current or nested scope exists in the table — so a first variable
registration of a name succeeds and lands in the global scope's map, and
a second registration of the same name anywhere in the program fails as a
duplicate symbol carrying the first definition's location, leaving the
table unchanged. -/
theorem registerVariable_global_collision (st : AstSymbolTable) (n1 n2 : Named)
    (hname : n2.name = n1.name)
    (hfree : st.globalScope.lookupLocal n1.name = none) :
    (st.registerVariable n1).2 = none ∧
    (st.registerVariable n1).1.globalScope.lookupLocal n1.name = some n1 ∧
    ((st.registerVariable n1).1.registerVariable n2).2 = some ⟨n2.name, n1.location⟩ ∧
    ((st.registerVariable n1).1.registerVariable n2).1 = (st.registerVariable n1).1 := by
  have e1 := define_eq_of_not_found st.globalScope n1 hfree
  have hl2 : (Scope.mk st.globalScope.parent ((n1.name, n1) :: st.globalScope.symbols)
      st.globalScope.kind).symbols.lookup n2.name = some n1 := by
    simp [Scope.symbols, hname, List.lookup]
  have e2 := define_eq_of_found _ n2 n1 hl2
  refine ⟨?_, ?_, ?_, ?_⟩
  · simp [AstSymbolTable.registerVariable, e1]
  · simp [AstSymbolTable.registerVariable, e1, Scope.lookupLocal, Scope.symbols, List.lookup]
  · simp [AstSymbolTable.registerVariable, e1, e2]
  · simp [AstSymbolTable.registerVariable, e1, e2]

/-- Witness for C10: two `x` variables collide in the global scope. -/
theorem registerVariable_witness :
    ((AstSymbolTable.mk (Scope.mk none [] ScopeKind.scopeGlobal) [] []).registerVariable
        ⟨"x", ⟨"f", 1, 1, 1, 2⟩⟩).2 = none ∧
    (((AstSymbolTable.mk (Scope.mk none [] ScopeKind.scopeGlobal) [] []).registerVariable
        ⟨"x", ⟨"f", 1, 1, 1, 2⟩⟩).1.registerVariable ⟨"x", ⟨"f", 2, 1, 2, 2⟩⟩).2 =
      some ⟨"x", ⟨"f", 1, 1, 1, 2⟩⟩ := by
  have h := registerVariable_global_collision
    (AstSymbolTable.mk (Scope.mk none [] ScopeKind.scopeGlobal) [] [])
    ⟨"x", ⟨"f", 1, 1, 1, 2⟩⟩ ⟨"x", ⟨"f", 2, 1, 2, 2⟩⟩ (by rfl)
    (by simp [Scope.lookupLocal, Scope.symbols, List.lookup])
  exact ⟨h.1, h.2.2.1⟩

/-- C9 (code bug in the legacy collector): on a `parameter_type` CST node
with no `type` field child, the legacy collector's `parseParameterType`
(pkg/analyzer/collector.go:397) panics — embedded as `Except.error` —
terminating the pass, while the AST-mediated collector's
`parseParameterType` (collector/collector.go:221-223) appends one
recoverable collection error and returns the zero `ParameterType`,
continuing the pass as the spec requires. -/
theorem parseParameterType_missing_type_node :
    LegacyCollector.parseParameterType (CstNode.mk "parameter_type" "(ctx)" true [] []) =
      Except.error "parseParameterType: type node is nil for node: (ctx)" ∧
    Collector.parseParameterType [] (CstNode.mk "parameter_type" "(ctx)" true [] []) =
      (["parseParameterType: type node is nil"], ("", Ty.nil)) := by
  constructor
  · simp [LegacyCollector.parseParameterType, childByFieldName, CstNode.fields,
          CstNode.text, List.lookup]
  · simp [Collector.parseParameterType, childByFieldName, CstNode.fields, List.lookup]

/-- Witness for C1 at concrete inputs: two `Maybe` data types with
different constructor maps are equal; a `Point` struct whose fields embed
into a larger same-named `Point` is equal to it. -/
theorem struct_data_equality_witness :
    TypesEqual (Ty.data "Maybe" [("Nil", ([], []))]) (Ty.data "Maybe" []) = true ∧
    TypesEqual (Ty.struct "Point" [("x", Ty.primitive "Int")])
      (Ty.struct "Point" [("x", Ty.primitive "Int"), ("y", Ty.primitive "Int")]) = true :=
  ⟨(struct_data_equality_nominal.1 "Maybe" [("Nil", ([], []))] "Maybe" []).mpr rfl,
   (struct_data_equality_nominal.2 "Point" [("x", Ty.primitive "Int")] "Point"
      [("x", Ty.primitive "Int"), ("y", Ty.primitive "Int")]).mpr
     ⟨rfl, by simp [List.lookup, TypesEqual]⟩⟩

end Lyra
